import Mathlib

/-!
Shallow embedding of the metadata-access and RPC utility layer of the
placement-driver server (`server/util.go`).  External effects (the etcd
client, network dials, protobuf decoding, wall-clock time) are modelled
as explicit parameters; the control flow of each Go function is embedded
faithfully, including its error paths and the traces of side effects
(connections opened/closed, metric events, sleeps) that the claims are
about.
-/

namespace PD

/-- Durations are modelled in nanoseconds, as in Go's `time.Duration`. -/
def requestTimeout : Nat := 10 * 1000000000

/-- The slow-operation logging threshold (`slowRequestTime = 1 * time.Second`). -/
def slowRequestTime : Nat := 1 * 1000000000

/-- Byte strings are lists of byte values. -/
abbrev Bytes : Type := List Nat

/-- One entry of an etcd range response (`mvccpb.KeyValue`), reduced to the
fields this layer reads. -/
structure KeyValue where
  key : Bytes
  value : Bytes
deriving Repr, DecidableEq

/-- An etcd `GetResponse`, reduced to its `Kvs` field. -/
structure GetResponse where
  kvs : List KeyValue
deriving Repr, DecidableEq

/-- Go `error` values produced by this layer.  `traced` is `errors.Trace`
(wrapping that preserves the cause); `external` stands for an error coming
from a collaborator (etcd client, network, protobuf); the remaining
constructors are the `errors.Errorf` sites of `util.go`. -/
inductive GoError where
  | traced (e : GoError)
  | external (tag : Nat)
  | multipleMatches (kvs : List KeyValue)
  | invalidDataLen (n : Nat)
  | connectFailed (addr : String)
  | idMismatch (reqID respID : Nat)
deriving Repr, DecidableEq

/-- `kvGet`: issues the underlying `kv.Get` (modelled by its result
`(resp, err)` and elapsed `cost`), logs a warning when slow, and returns
`(resp, errors.Trace(err))`.  The boolean is whether the slow-log warning
fired. -/
def kvGet (resp : GetResponse) (err : Option GoError) (cost : Nat) :
    (GetResponse × Option GoError) × Bool :=
  ((resp, err.map GoError.traced), decide (cost > slowRequestTime))

/-- `getValue`: single-key lookup on top of `kvGet`.  Returns Go-style
`(value, error)`: `(nil, nil)` on zero matches, an error on more than one
match, and the single entry's value otherwise. -/
def getValue (resp : GetResponse) (err : Option GoError) (cost : Nat) :
    Option Bytes × Option GoError :=
  match (kvGet resp err cost).1 with
  | (_, some e) => (none, some (GoError.traced e))
  | (r, none) =>
    match r.kvs with
    | [] => (none, none)
    | [kv] => (some kv.value, none)
    | _ :: _ :: _ => (none, some (GoError.multipleMatches r.kvs))

/-- `getProtoMsg`: typed lookup.  `unmarshal` models `proto.Unmarshal` for
the expected message type `M`.  Returns Go-style `(found, error)` together
with the decoded message (`none` when `msg` was not populated). -/
def getProtoMsg {M : Type} (unmarshal : Bytes → Except GoError M)
    (resp : GetResponse) (err : Option GoError) (cost : Nat) :
    Bool × Option M × Option GoError :=
  match getValue resp err cost with
  | (_, some e) => (false, none, some (GoError.traced e))
  | (none, none) => (false, none, none)
  | (some value, none) =>
    match unmarshal value with
    | Except.error e => (false, none, some (GoError.traced e))
    | Except.ok m => (true, some m, none)

/-- `uint64ToBytes`: 8-byte big-endian encoding (`binary.BigEndian.PutUint64`). -/
def uint64ToBytes (v : Nat) : Bytes :=
  [v / 2 ^ 56 % 256, v / 2 ^ 48 % 256, v / 2 ^ 40 % 256, v / 2 ^ 32 % 256,
   v / 2 ^ 24 % 256, v / 2 ^ 16 % 256, v / 2 ^ 8 % 256, v % 256]

/-- `binary.BigEndian.Uint64` on an 8-byte slice. -/
def bigEndianUint64 (b : Bytes) : Nat :=
  match b with
  | [b0, b1, b2, b3, b4, b5, b6, b7] =>
    b0 * 2 ^ 56 + b1 * 2 ^ 48 + b2 * 2 ^ 40 + b3 * 2 ^ 32 +
      b4 * 2 ^ 24 + b5 * 2 ^ 16 + b6 * 2 ^ 8 + b7
  | _ => 0

/-- `bytesToUint64`: errors unless the input is exactly 8 bytes, else
decodes big-endian.  Go-style `(value, error)` result. -/
def bytesToUint64 (b : Bytes) : Nat × Option GoError :=
  if b.length ≠ 8 then (0, some (GoError.invalidDataLen b.length))
  else (bigEndianUint64 b, none)

/-! ### Transactional commit wrapper (`slowLogTxn`) -/

/-- An etcd compare condition (`clientv3.Cmp`), abstract. -/
structure Cmp where
  tag : Nat
deriving Repr, DecidableEq

/-- An etcd operation (`clientv3.Op`), abstract. -/
structure Op where
  tag : Nat
deriving Repr, DecidableEq

/-- An etcd `TxnResponse`, abstract. -/
structure TxnResponse where
  tag : Nat
deriving Repr, DecidableEq

/-- The underlying `clientv3.Txn`: it accumulates the compare conditions
passed to `If` and the operations passed to `Then`, and submits them
atomically on `Commit`. -/
structure Txn where
  cmps : List Cmp
  ops : List Op
deriving Repr, DecidableEq

def Txn.If (t : Txn) (cs : List Cmp) : Txn :=
  { t with cmps := t.cmps ++ cs }

def Txn.Then (t : Txn) (os : List Op) : Txn :=
  { t with ops := t.ops ++ os }

/-- `slowLogTxn`: wraps an underlying `clientv3.Txn` together with the
cancel handle of the timeout context created at construction time. -/
structure SlowLogTxn where
  txn : Txn
  cancelToken : Nat
deriving Repr, DecidableEq

/-- `newSlowLogTxn`: attaches a fresh timeout context (its cancel handle
is `tok`) and wraps the client's fresh, empty transaction. -/
def newSlowLogTxn (tok : Nat) : SlowLogTxn :=
  { txn := { cmps := [], ops := [] }, cancelToken := tok }

/-- `slowLogTxn.If` delegates to the underlying transaction's `If` and
keeps the same cancel handle. -/
def SlowLogTxn.If (t : SlowLogTxn) (cs : List Cmp) : SlowLogTxn :=
  { txn := t.txn.If cs, cancelToken := t.cancelToken }

/-- `slowLogTxn.Then` delegates to the underlying transaction's `Then`
and keeps the same cancel handle. -/
def SlowLogTxn.Then (t : SlowLogTxn) (os : List Op) : SlowLogTxn :=
  { txn := t.txn.Then os, cancelToken := t.cancelToken }

/-- Observable side effects of `slowLogTxn.Commit`, in emission order. -/
inductive CommitEvent where
  | cancel (tok : Nat)
  | slowLogWarn
  | counterInc (label : String)
  | histObserve (label : String) (costSeconds : Nat)
deriving Repr, DecidableEq

/-- `slowLogTxn.Commit`: runs the underlying commit (modelled by
`commitFn` applied to the accumulated conditions and operations, with
elapsed time `cost`), cancels the timeout context, logs if slow, records
one counter increment and one histogram observation labelled by outcome,
and returns `(resp, errors.Trace(err))`. -/
def SlowLogTxn.Commit (t : SlowLogTxn)
    (commitFn : List Cmp → List Op → Option TxnResponse × Option GoError)
    (cost : Nat) :
    (Option TxnResponse × Option GoError) × List CommitEvent :=
  let r := commitFn t.txn.cmps t.txn.ops
  let slowEvents := if cost > slowRequestTime then [CommitEvent.slowLogWarn] else []
  let label := if r.2.isSome then "failed" else "success"
  ((r.1, r.2.map GoError.traced),
    CommitEvent.cancel t.cancelToken :: slowEvents ++
      [CommitEvent.counterInc label, CommitEvent.histObserve label cost])

/-- One `If`/`Then` call in a client's interaction with a transaction. -/
inductive TxnCall where
  | ifCmps (cs : List Cmp)
  | thenOps (os : List Op)
deriving Repr, DecidableEq

/-- Apply a sequence of `If`/`Then` calls to a bare `clientv3.Txn`. -/
def applyCalls (t : Txn) : List TxnCall → Txn
  | [] => t
  | TxnCall.ifCmps cs :: rest => applyCalls (t.If cs) rest
  | TxnCall.thenOps os :: rest => applyCalls (t.Then os) rest

/-- Apply the same sequence of `If`/`Then` calls through the wrapper. -/
def applyCallsSlow (t : SlowLogTxn) : List TxnCall → SlowLogTxn
  | [] => t
  | TxnCall.ifCmps cs :: rest => applyCallsSlow (t.If cs) rest
  | TxnCall.thenOps os :: rest => applyCallsSlow (t.Then os) rest

/-! ### Startup readiness prober (`waitEtcdStart`) -/

def maxCheckEtcdRunningCount : Nat := 100

/-- `checkEtcdRunningDelay = 100 * time.Millisecond`, in nanoseconds. -/
def checkEtcdRunningDelay : Nat := 100 * 1000000

/-- One loop iteration trace: how many status queries were issued and how
many fixed-delay sleeps were performed. -/
structure ProbeTrace where
  queries : Nat
  sleeps : Nat
deriving Repr, DecidableEq

/-- The loop of `waitEtcdStart`: attempt `i` queries the status endpoint
(`status i = none` means the query returned no error); a failed attempt
stores the error, sleeps the fixed delay, and retries while attempts
remain; after the last attempt the loop returns `errors.Trace(err)` with
the last observed error. -/
def waitEtcdStartLoop (status : Nat → Option GoError) (i : Nat)
    (lastErr : Option GoError) : (fuel : Nat) → Option GoError × ProbeTrace
  | 0 => (lastErr.map GoError.traced, { queries := 0, sleeps := 0 })
  | fuel + 1 =>
    match status i with
    | none => (none, { queries := 1, sleeps := 0 })
    | some e =>
      let r := waitEtcdStartLoop status (i + 1) (some e) fuel
      (r.1, { queries := r.2.queries + 1, sleeps := r.2.sleeps + 1 })

/-- `waitEtcdStart`: run the loop for `maxCheckEtcdRunningCount` attempts
starting with no recorded error.  Returns the Go-style error (`none` =
success) and the trace of queries/sleeps. -/
def waitEtcdStart (status : Nat → Option GoError) : Option GoError × ProbeTrace :=
  waitEtcdStartLoop status 0 none maxCheckEtcdRunningCount

/-! ### RPC client (`rpcConnect`, `rpcCall`, `RPCRequest`) -/

/-- A `pdpb.Request`, abstract. -/
structure PdRequest where
  tag : Nat
deriving Repr, DecidableEq

/-- A `pdpb.Response`, abstract. -/
structure PdResponse where
  tag : Nat
deriving Repr, DecidableEq

/-- The `msgpb.MessageType` discriminant. -/
inductive MessageType where
  | pdReq
  | pdResp
deriving Repr, DecidableEq

/-- A `msgpb.Message` envelope, reduced to the fields this layer uses. -/
structure Message where
  msgType : MessageType
  pdReq : Option PdRequest
  pdResp : Option PdResponse
deriving Repr, DecidableEq

/-- `GetPdResp` returns the (possibly nil) `PdResp` field. -/
def Message.GetPdResp (m : Message) : Option PdResponse :=
  m.pdResp

/-- The network environment an RPC call runs against.  Candidate
endpoints are identified by their index-like id in the parsed URL list;
a connection is identified by the candidate it was dialed to.
`parseUrls` is the result of `ParseUrls(addr)`; `dialErr i` is whether
`net.Dial` fails for candidate `i`; `preflightErr i` is whether writing
the preflight HTTP request on the fresh connection fails;
`writeMessage`/`readResult` model `util.WriteMessage`/`util.ReadMessage`
on the chosen connection. -/
structure RpcEnv where
  parseUrls : Except GoError (List Nat)
  dialErr : Nat → Bool
  preflightErr : Nat → Bool
  writeMessage : Nat → Nat → Message → Option GoError
  readResult : Nat → Except GoError (Nat × Message)

/-- The connection-lifecycle trace of one call: which candidates were
dialed (in order), which dials produced an open connection, and which
connections were closed. -/
structure ConnTrace where
  dialed : List Nat
  opened : List Nat
  closed : List Nat
deriving Repr, DecidableEq

def emptyConnTrace : ConnTrace :=
  { dialed := [], opened := [], closed := [] }

/-- The candidate loop of `rpcConnect`: dial each URL in order; a dial
failure just moves on (no connection was opened); a preflight-write
failure closes the connection and moves on; on success the open
connection is returned.  When every candidate fails the loop falls
through to `errors.Errorf("connect to %s failed", addr)`. -/
def rpcConnectLoop (env : RpcEnv) (addr : String) :
    List Nat → ConnTrace → Except GoError Nat × ConnTrace
  | [], tr => (Except.error (GoError.connectFailed addr), tr)
  | i :: rest, tr =>
    let trD := { tr with dialed := tr.dialed ++ [i] }
    if env.dialErr i then
      rpcConnectLoop env addr rest trD
    else
      let trO := { trD with opened := trD.opened ++ [i] }
      if env.preflightErr i then
        rpcConnectLoop env addr rest { trO with closed := trO.closed ++ [i] }
      else
        (Except.ok i, trO)

/-- `rpcConnect`: build the preflight request (its construction from the
constant RPC path never fails and is omitted), parse the address into
candidate URLs, and run the candidate loop. -/
def rpcConnect (env : RpcEnv) (addr : String) : Except GoError Nat × ConnTrace :=
  match env.parseUrls with
  | Except.error e => (Except.error (GoError.traced e), emptyConnTrace)
  | Except.ok urls => rpcConnectLoop env addr urls emptyConnTrace

/-- `rpcCall`: wrap the request in a `msgpb.Message` envelope, write it
with the caller-supplied `reqID`, read one response envelope, and require
the response id to equal `reqID`.  No path closes the connection. -/
def rpcCall (env : RpcEnv) (conn : Nat) (reqID : Nat) (request : PdRequest) :
    Except GoError (Option PdResponse) :=
  let req : Message :=
    { msgType := MessageType.pdReq, pdReq := some request, pdResp := none }
  match env.writeMessage conn reqID req with
  | some e => Except.error (GoError.traced e)
  | none =>
    match env.readResult conn with
    | Except.error e => Except.error (GoError.traced e)
    | Except.ok (respID, resp) =>
      if respID ≠ reqID then
        Except.error (GoError.idMismatch reqID respID)
      else
        Except.ok resp.GetPdResp

/-- `RPCRequest`: connect (with candidate fallback), then perform the
call on the chosen connection.  The trace records every connection
lifecycle event of the whole call. -/
def RPCRequest (env : RpcEnv) (addr : String) (reqID : Nat) (request : PdRequest) :
    Except GoError (Option PdResponse) × ConnTrace :=
  match rpcConnect env addr with
  | (Except.error e, tr) => (Except.error (GoError.traced e), tr)
  | (Except.ok conn, tr) => (rpcCall env conn reqID request, tr)

/-! ### Log bridge (`redirectFormatter.Format`) -/

/-- The embedded component's (`capnslog`) levels. -/
inductive CapnsLogLevel where
  | critical
  | errorLvl
  | warning
  | notice
  | info
  | debug
  | trace
deriving Repr, DecidableEq

/-- What the bridge does with one entry: emit on the process sink at a
level, or terminate the process (`log.Fatalf`). -/
inductive SinkAction where
  | fatal
  | errorOut
  | warningOut
  | infoOut
  | debugOut
deriving Repr, DecidableEq

/-- The level dispatch of `redirectFormatter.Format`. -/
def redirectFormat : CapnsLogLevel → SinkAction
  | CapnsLogLevel.critical => SinkAction.fatal
  | CapnsLogLevel.errorLvl => SinkAction.errorOut
  | CapnsLogLevel.warning => SinkAction.warningOut
  | CapnsLogLevel.notice => SinkAction.infoOut
  | CapnsLogLevel.info => SinkAction.infoOut
  | CapnsLogLevel.debug => SinkAction.debugOut
  | CapnsLogLevel.trace => SinkAction.debugOut

/-! ## Theorems -/

/-- C1: for every KV single-key lookup, `getValue` returns `(nil, nil)`
when the underlying query yields zero matching entries, fails with the
multiple-matches error when it yields more than one entry, and when it
yields exactly one entry returns that entry's value byte-for-byte
unmodified. -/
theorem getValue_single_key_lookup (resp : GetResponse) (cost : Nat) :
    (resp.kvs = [] → getValue resp none cost = (none, none)) ∧
    (1 < resp.kvs.length →
      getValue resp none cost = (none, some (GoError.multipleMatches resp.kvs))) ∧
    (∀ kv, resp.kvs = [kv] → getValue resp none cost = (some kv.value, none)) := by
  obtain ⟨kvs⟩ := resp
  refine ⟨?_, ?_, ?_⟩
  · intro h
    simp only at h
    subst h
    rfl
  · intro h
    simp only at h
    match kvs, h with
    | a :: b :: l, _ => rfl
  · intro kv h
    simp only at h
    subst h
    rfl

/-- Witness for `getValue_single_key_lookup` at concrete responses with
zero, two and one entries. -/
theorem getValue_single_key_lookup_witness :
    getValue ⟨[]⟩ none 0 = (none, none) ∧
    getValue ⟨[⟨[1], [2]⟩, ⟨[1], [3]⟩]⟩ none 0 =
      (none, some (GoError.multipleMatches [⟨[1], [2]⟩, ⟨[1], [3]⟩])) ∧
    getValue ⟨[⟨[1], [2]⟩]⟩ none 0 = (some [2], none) :=
  ⟨(getValue_single_key_lookup ⟨[]⟩ 0).1 rfl,
   (getValue_single_key_lookup ⟨[⟨[1], [2]⟩, ⟨[1], [3]⟩]⟩ 0).2.1 (by decide),
   (getValue_single_key_lookup ⟨[⟨[1], [2]⟩]⟩ 0).2.2 ⟨[1], [2]⟩ rfl⟩

/-- C8: `getProtoMsg` returns `(false, nil)` when the key is absent,
fails when the stored bytes do not decode as the expected message type,
and on success returns `(true, nil)` with the message decoded from the
stored bytes; absence and decode failure are never conflated. -/
theorem getProtoMsg_absence_vs_decode {M : Type}
    (unmarshal : Bytes → Except GoError M) (resp : GetResponse) (cost : Nat) :
    (resp.kvs = [] → getProtoMsg unmarshal resp none cost = (false, none, none)) ∧
    (∀ kv e, resp.kvs = [kv] → unmarshal kv.value = Except.error e →
      getProtoMsg unmarshal resp none cost = (false, none, some (GoError.traced e))) ∧
    (∀ kv m, resp.kvs = [kv] → unmarshal kv.value = Except.ok m →
      getProtoMsg unmarshal resp none cost = (true, some m, none)) := by
  obtain ⟨kvs⟩ := resp
  refine ⟨?_, ?_, ?_⟩
  · intro h
    simp only at h
    subst h
    rfl
  · intro kv e h hu
    simp only at h
    subst h
    simp [getProtoMsg, getValue, kvGet, hu]
  · intro kv m h hu
    simp only at h
    subst h
    simp [getProtoMsg, getValue, kvGet, hu]

/-- Witness for `getProtoMsg_absence_vs_decode`: a decoder accepting only
`[2]`, applied to an absent key, a key holding undecodable bytes, and a
key holding `[2]`. -/
theorem getProtoMsg_absence_vs_decode_witness :
    getProtoMsg (fun b => if b = [2] then Except.ok 7 else Except.error (GoError.external 3))
      ⟨[]⟩ none 0 = (false, none, none) ∧
    getProtoMsg (fun b => if b = [2] then Except.ok 7 else Except.error (GoError.external 3))
      ⟨[⟨[1], [4]⟩]⟩ none 0 = (false, none, some (GoError.traced (GoError.external 3))) ∧
    getProtoMsg (fun b => if b = [2] then Except.ok 7 else Except.error (GoError.external 3))
      ⟨[⟨[1], [2]⟩]⟩ none 0 = (true, some 7, none) :=
  ⟨(getProtoMsg_absence_vs_decode _ ⟨[]⟩ 0).1 rfl,
   (getProtoMsg_absence_vs_decode _ ⟨[⟨[1], [4]⟩]⟩ 0).2.1 ⟨[1], [4]⟩ (GoError.external 3)
     rfl rfl,
   (getProtoMsg_absence_vs_decode _ ⟨[⟨[1], [2]⟩]⟩ 0).2.2 ⟨[1], [2]⟩ 7 rfl rfl⟩

/-- C9: the log bridge maps notice and info to the same sink level,
debug and trace to the same sink level, error and warning to the
corresponding sink levels, and a critical entry terminates the process. -/
theorem redirectFormat_level_mapping :
    redirectFormat CapnsLogLevel.notice = redirectFormat CapnsLogLevel.info ∧
    redirectFormat CapnsLogLevel.debug = redirectFormat CapnsLogLevel.trace ∧
    redirectFormat CapnsLogLevel.errorLvl = SinkAction.errorOut ∧
    redirectFormat CapnsLogLevel.warning = SinkAction.warningOut ∧
    redirectFormat CapnsLogLevel.critical = SinkAction.fatal := by
  decide

/-- C10: decoding the 8-byte big-endian encoding of a 64-bit value
round-trips, and `bytesToUint64` errors exactly on inputs whose length
is not 8. -/
theorem bytesToUint64_roundtrip_and_length :
    (∀ v, v < 2 ^ 64 → bytesToUint64 (uint64ToBytes v) = (v, none)) ∧
    (∀ b : Bytes, (bytesToUint64 b).2.isSome = true ↔ b.length ≠ 8) := by
  constructor
  · intro v hv
    simp only [bytesToUint64, uint64ToBytes, bigEndianUint64, List.length_cons,
      List.length_nil]
    norm_num
    omega
  · intro b
    by_cases h : b.length = 8 <;> simp [bytesToUint64, h]

/-- Witness for `bytesToUint64_roundtrip_and_length` at a concrete value. -/
theorem bytesToUint64_roundtrip_witness :
    bytesToUint64 (uint64ToBytes 81985529216486895) = (81985529216486895, none) :=
  bytesToUint64_roundtrip_and_length.1 81985529216486895 (by norm_num)

/-- C5: every commit, success or failure, records exactly one outcome
counter increment and exactly one duration-histogram observation, both
labelled "success" when the underlying commit returned no error and
"failed" when it returned an error. -/
theorem slowLogTxn_commit_metrics (t : SlowLogTxn)
    (commitFn : List Cmp → List Op → Option TxnResponse × Option GoError)
    (cost : Nat) :
    (t.Commit commitFn cost).2.filter
        (fun e => match e with | CommitEvent.counterInc _ => true | _ => false) =
      [CommitEvent.counterInc
        (if (commitFn t.txn.cmps t.txn.ops).2.isSome then "failed" else "success")] ∧
    (t.Commit commitFn cost).2.filter
        (fun e => match e with | CommitEvent.histObserve _ _ => true | _ => false) =
      [CommitEvent.histObserve
        (if (commitFn t.txn.cmps t.txn.ops).2.isSome then "failed" else "success")
        cost] := by
  by_cases h : cost > slowRequestTime <;>
    by_cases h2 : (commitFn t.txn.cmps t.txn.ops).2.isSome <;>
      simp [SlowLogTxn.Commit, h, h2, List.filter]

/-- The wrapper accumulates exactly the conditions and operations the
underlying bare transaction would, and keeps its cancel handle. -/
theorem applyCallsSlow_txn (t : SlowLogTxn) (calls : List TxnCall) :
    (applyCallsSlow t calls).txn = applyCalls t.txn calls ∧
    (applyCallsSlow t calls).cancelToken = t.cancelToken := by
  induction calls generalizing t with
  | nil => exact ⟨rfl, rfl⟩
  | cons c rest ih =>
    cases c with
    | ifCmps cs => exact ih (t.If cs)
    | thenOps os => exact ih (t.Then os)

/-- C6: for every sequence of `If`/`Then` calls followed by `Commit`, the
wrapper submits exactly the compare conditions and operations the
underlying transaction would accumulate for the same sequence, and
`Commit` returns the underlying transaction's response and error
unchanged (up to `errors.Trace` wrapping of the error). -/
theorem slowLogTxn_preserves_txn_semantics (tok : Nat) (calls : List TxnCall)
    (commitFn : List Cmp → List Op → Option TxnResponse × Option GoError)
    (cost : Nat) :
    (applyCallsSlow (newSlowLogTxn tok) calls).txn
        = applyCalls { cmps := [], ops := [] } calls ∧
    ((applyCallsSlow (newSlowLogTxn tok) calls).Commit commitFn cost).1.1
        = (commitFn (applyCalls { cmps := [], ops := [] } calls).cmps
            (applyCalls { cmps := [], ops := [] } calls).ops).1 ∧
    ((applyCallsSlow (newSlowLogTxn tok) calls).Commit commitFn cost).1.2
        = (commitFn (applyCalls { cmps := [], ops := [] } calls).cmps
            (applyCalls { cmps := [], ops := [] } calls).ops).2.map GoError.traced := by
  have h := (applyCallsSlow_txn (newSlowLogTxn tok) calls).1
  have h0 : (newSlowLogTxn tok).txn = { cmps := [], ops := [] } := rfl
  rw [h0] at h
  refine ⟨h, ?_, ?_⟩ <;> simp [SlowLogTxn.Commit, h]

/-- Success case of the prober loop: when the first `m` attempts starting
at index `i` error and attempt `i + m` succeeds (with `m` below the
remaining fuel), the loop returns success after exactly `m + 1` status
queries and `m` sleeps. -/
theorem waitEtcdStartLoop_success (status : Nat → Option GoError) :
    ∀ (m fuel i : Nat) (last : Option GoError), m < fuel →
      (∀ j, j < m → (status (i + j)).isSome) → status (i + m) = none →
      waitEtcdStartLoop status i last fuel = (none, { queries := m + 1, sleeps := m }) := by
  intro m
  induction m with
  | zero =>
    intro fuel i last hf _ hm
    match fuel, hf with
    | f + 1, _ =>
      rw [Nat.add_zero] at hm
      simp [waitEtcdStartLoop, hm]
  | succ m ih =>
    intro fuel i last hf hj hm
    match fuel, hf with
    | f + 1, hf =>
      obtain ⟨e, he⟩ := Option.isSome_iff_exists.mp (hj 0 (Nat.succ_pos m))
      rw [Nat.add_zero] at he
      have hrec := ih f (i + 1) (some e) (by omega)
        (fun j hjm => by
          have := hj (j + 1) (by omega)
          rwa [show i + (j + 1) = i + 1 + j by omega] at this)
        (by rwa [show i + 1 + m = i + (m + 1) by omega])
      simp [waitEtcdStartLoop, he, hrec]

/-- Exhaustion case of the prober loop: when every attempt within the
fuel errors, the loop performs exactly `fuel` queries and sleeps and
returns the last observed error, `errors.Trace`-wrapped. -/
theorem waitEtcdStartLoop_allfail (status : Nat → Option GoError) :
    ∀ (fuel i : Nat) (last : Option GoError), 0 < fuel →
      (∀ j, j < fuel → (status (i + j)).isSome) →
      waitEtcdStartLoop status i last fuel =
        ((status (i + fuel - 1)).map GoError.traced,
         { queries := fuel, sleeps := fuel }) := by
  intro fuel
  induction fuel with
  | zero => intro i last h; omega
  | succ f ih =>
    intro i last _ hall
    obtain ⟨e, he⟩ := Option.isSome_iff_exists.mp (hall 0 (Nat.succ_pos f))
    rw [Nat.add_zero] at he
    rcases Nat.eq_zero_or_pos f with hf | hf
    · subst hf
      simp [waitEtcdStartLoop, he]
    · have hrec := ih (i + 1) (some e) hf
        (fun j hjf => by
          have := hall (j + 1) (by omega)
          rwa [show i + (j + 1) = i + 1 + j by omega] at this)
      rw [show i + (f + 1) - 1 = i + 1 + f - 1 by omega]
      simp [waitEtcdStartLoop, he, hrec]

/-- C7: the readiness prober succeeds on the first status query that does
not error, making exactly `m + 1` queries with a fixed-delay sleep after
each of the `m` failed attempts; when every attempt errors it stops after
exactly 100 attempts and returns the last observed error. -/
theorem waitEtcdStart_bounded_polling (status : Nat → Option GoError) :
    (∀ m, m < maxCheckEtcdRunningCount → (∀ j, j < m → (status j).isSome) →
      status m = none →
      waitEtcdStart status = (none, { queries := m + 1, sleeps := m })) ∧
    ((∀ j, j < maxCheckEtcdRunningCount → (status j).isSome) →
      waitEtcdStart status =
        ((status (maxCheckEtcdRunningCount - 1)).map GoError.traced,
         { queries := maxCheckEtcdRunningCount,
           sleeps := maxCheckEtcdRunningCount })) := by
  constructor
  · intro m hm hj hnone
    exact waitEtcdStartLoop_success status m maxCheckEtcdRunningCount 0 none hm
      (fun j hjm => by simpa using hj j hjm) (by simpa using hnone)
  · intro hall
    have := waitEtcdStartLoop_allfail status maxCheckEtcdRunningCount 0 none
      (by norm_num [maxCheckEtcdRunningCount])
      (fun j hjf => by simpa using hall j hjf)
    simpa using this

/-- Witness for `waitEtcdStart_bounded_polling`: a store erroring on the
first two attempts then succeeding, and a store that never succeeds. -/
theorem waitEtcdStart_bounded_polling_witness :
    waitEtcdStart (fun j => if j < 2 then some (GoError.external 0) else none)
      = (none, { queries := 3, sleeps := 2 }) ∧
    waitEtcdStart (fun _ => some (GoError.external 7))
      = (some (GoError.traced (GoError.external 7)),
         { queries := 100, sleeps := 100 }) :=
  ⟨(waitEtcdStart_bounded_polling
      (fun j => if j < 2 then some (GoError.external 0) else none)).1 2
      (by norm_num [maxCheckEtcdRunningCount])
      (fun j hj => by simp [hj]) (by norm_num),
   (waitEtcdStart_bounded_polling (fun _ => some (GoError.external 7))).2
      (fun j _ => by simp)⟩

/-- A well-formed response envelope used in concrete environments. -/
def msgOK : Message :=
  { msgType := MessageType.pdResp, pdReq := none, pdResp := some { tag := 9 } }

/-- C4: a response whose correlation id differs from the request's
caller-supplied id always yields an error, even when the payload decodes
cleanly; an equal correlation id is required for the call to succeed. -/
theorem rpcCall_correlation_id (env : RpcEnv) (conn reqID : Nat)
    (request : PdRequest) :
    (∀ respID m, env.readResult conn = Except.ok (respID, m) → respID ≠ reqID →
      ∃ e, rpcCall env conn reqID request = Except.error e) ∧
    (∀ r, rpcCall env conn reqID request = Except.ok r →
      ∃ m, env.readResult conn = Except.ok (reqID, m) ∧ r = m.GetPdResp) := by
  constructor
  · intro respID m hread hne
    cases hw : env.writeMessage conn reqID
        { msgType := MessageType.pdReq, pdReq := some request, pdResp := none } with
    | some e => exact ⟨GoError.traced e, by simp [rpcCall, hw]⟩
    | none =>
      exact ⟨GoError.idMismatch reqID respID, by simp [rpcCall, hw, hread, hne]⟩
  · intro r h
    simp only [rpcCall] at h
    cases hw : env.writeMessage conn reqID
        { msgType := MessageType.pdReq, pdReq := some request, pdResp := none } with
    | some e => rw [hw] at h; simp at h
    | none =>
      rw [hw] at h
      cases hr : env.readResult conn with
      | error e => rw [hr] at h; simp at h
      | ok p =>
        obtain ⟨respID, m⟩ := p
        rw [hr] at h
        by_cases hid : respID = reqID
        · subst hid
          simp at h
          exact ⟨m, rfl, h.symm⟩
        · simp [hid] at h

/-- Environment for the correlation-id witnesses: every candidate
dials, the preflight and the request send succeed, and the response
envelope carries correlation id 2. -/
def envIdMismatch : RpcEnv :=
  { parseUrls := Except.ok [0],
    dialErr := fun _ => false,
    preflightErr := fun _ => false,
    writeMessage := fun _ _ _ => none,
    readResult := fun _ => Except.ok (2, msgOK) }

/-- Like `envIdMismatch` but the response correlation id matches. -/
def envIdMatch : RpcEnv :=
  { envIdMismatch with readResult := fun _ => Except.ok (1, msgOK) }

/-- Witness for `rpcCall_correlation_id`: with request id 1 a response
carrying id 2 yields an error, and a response carrying id 1 succeeds. -/
theorem rpcCall_correlation_id_witness :
    (∃ e, rpcCall envIdMismatch 0 1 { tag := 0 } = Except.error e) ∧
    (∃ m, envIdMatch.readResult 0 = Except.ok (1, m) ∧
      some { tag := 9 } = m.GetPdResp) :=
  ⟨(rpcCall_correlation_id envIdMismatch 0 1 { tag := 0 }).1 2 msgOK rfl
      (by decide),
   (rpcCall_correlation_id envIdMatch 0 1 { tag := 0 }).2
      (some { tag := 9 }) rfl⟩

/-- Environment for the connection-lifecycle evidence: a single
candidate, and the whole call succeeds. -/
def envAllOK : RpcEnv :=
  { parseUrls := Except.ok [0],
    dialErr := fun _ => false,
    preflightErr := fun _ => false,
    writeMessage := fun _ _ _ => none,
    readResult := fun _ => Except.ok (1, msgOK) }

/-- Like `envAllOK` but the response read fails. -/
def envRecvFail : RpcEnv :=
  { envAllOK with readResult := fun _ => Except.error (GoError.external 4) }

/-- C3 (evidence of the code bug): on a fully successful call and on a
receive-failure call alike, the connection opened by `rpcConnect` is
still unclosed when `RPCRequest` returns — no path of `rpcCall` or
`RPCRequest` closes it. -/
theorem rpcRequest_leaves_connection_open :
    (RPCRequest envAllOK "addr" 1 { tag := 0 }).1 = Except.ok (some { tag := 9 }) ∧
    (RPCRequest envAllOK "addr" 1 { tag := 0 }).2.opened = [0] ∧
    (RPCRequest envAllOK "addr" 1 { tag := 0 }).2.closed = [] ∧
    (RPCRequest envRecvFail "addr" 1 { tag := 0 }).1
      = Except.error (GoError.traced (GoError.external 4)) ∧
    (RPCRequest envRecvFail "addr" 1 { tag := 0 }).2.opened = [0] ∧
    (RPCRequest envRecvFail "addr" 1 { tag := 0 }).2.closed = [] :=
  ⟨rfl, rfl, rfl, rfl, rfl, rfl⟩

/-- Environment refuting the claim that a send failure falls back to the
next candidate: candidate 0 connects and completes the preflight but the
request send on its connection fails, while candidate 1 is fully
reachable and would answer with the matching id. -/
def envSendFail : RpcEnv :=
  { parseUrls := Except.ok [0, 1],
    dialErr := fun _ => false,
    preflightErr := fun _ => false,
    writeMessage := fun conn _ _ =>
      if conn = 0 then some (GoError.external 1) else none,
    readResult := fun _ => Except.ok (1, msgOK) }

/-- C2 counterexample: with candidate 0's request send failing and
candidate 1 fully functional, the call fails outright — candidate 1 is
never dialed, no connection is closed, and a direct call on candidate 1
would have succeeded.  A per-candidate send failure is terminal, not a
fallback trigger, and the call can fail although not all candidates are
unreachable. -/
theorem rpc_send_failure_does_not_fall_back :
    (RPCRequest envSendFail "addr" 1 { tag := 0 }).1
      = Except.error (GoError.traced (GoError.external 1)) ∧
    (RPCRequest envSendFail "addr" 1 { tag := 0 }).2.dialed = [0] ∧
    (RPCRequest envSendFail "addr" 1 { tag := 0 }).2.closed = [] ∧
    envSendFail.dialErr 1 = false ∧
    envSendFail.preflightErr 1 = false ∧
    rpcCall envSendFail 1 1 { tag := 0 } = Except.ok (some { tag := 9 }) :=
  ⟨rfl, rfl, rfl, rfl, rfl, rfl⟩

/-- A candidate on which both the dial and the preflight write succeed. -/
def goodCand (env : RpcEnv) (i : Nat) : Bool :=
  !env.dialErr i && !env.preflightErr i

/-- Trace and result characterization of the `rpcConnect` candidate
loop, for any starting trace. -/
theorem rpcConnectLoop_spec (env : RpcEnv) (addr : String) :
    ∀ (urls : List Nat) (tr : ConnTrace),
      (rpcConnectLoop env addr urls tr).2.dialed
        = tr.dialed ++ urls.take (urls.findIdx (goodCand env) + 1) ∧
      (rpcConnectLoop env addr urls tr).2.opened
        = tr.opened ++ (urls.take (urls.findIdx (goodCand env) + 1)).filter
            (fun i => !env.dialErr i) ∧
      (rpcConnectLoop env addr urls tr).2.closed
        = tr.closed ++ ((urls.take (urls.findIdx (goodCand env) + 1)).filter
            (fun i => !env.dialErr i)).filter (fun i => env.preflightErr i) ∧
      (rpcConnectLoop env addr urls tr).1
        = (match urls.find? (goodCand env) with
           | some c => Except.ok c
           | none => Except.error (GoError.connectFailed addr)) := by
  intro urls
  induction urls with
  | nil => intro tr; simp [rpcConnectLoop]
  | cons i rest ih =>
    intro tr
    by_cases hd : env.dialErr i
    · have hg : goodCand env i = false := by simp [goodCand, hd]
      have hrec := ih ⟨tr.dialed ++ [i], tr.opened, tr.closed⟩
      simp [rpcConnectLoop, hd, hg, List.findIdx_cons, List.find?_cons,
        List.take_succ_cons, List.filter_cons, hrec.1, hrec.2.1, hrec.2.2.1,
        hrec.2.2.2]
    · by_cases hp : env.preflightErr i
      · have hg : goodCand env i = false := by simp [goodCand, hd, hp]
        have hrec := ih ⟨tr.dialed ++ [i], tr.opened ++ [i], tr.closed ++ [i]⟩
        simp [rpcConnectLoop, hd, hp, hg, List.findIdx_cons, List.find?_cons,
          List.take_succ_cons, List.filter_cons, hrec.1, hrec.2.1, hrec.2.2.1,
          hrec.2.2.2]
      · have hg : goodCand env i = true := by simp [goodCand, hd, hp]
        simp [rpcConnectLoop, hd, hp, hg, List.findIdx_cons, List.find?_cons,
          List.take_succ_cons, List.filter_cons]

/-- C2 (amended): a connect failure or a preflight-handshake failure for
a candidate closes any partially opened connection and moves on to the
next candidate, each candidate being dialed at most once in listed
order; when every candidate fails this way the call fails with the
connect-failed error; but a failure sending the request frame on the
already-established connection is terminal for the call and falls back
to no further candidate. -/
theorem rpcConnect_candidate_fallback (env : RpcEnv) (addr : String)
    (urls : List Nat) (h : env.parseUrls = Except.ok urls) :
    (rpcConnect env addr).2.dialed
      = urls.take (urls.findIdx (goodCand env) + 1) ∧
    (rpcConnect env addr).2.opened
      = ((rpcConnect env addr).2.dialed).filter (fun i => !env.dialErr i) ∧
    (rpcConnect env addr).2.closed
      = ((rpcConnect env addr).2.opened).filter (fun i => env.preflightErr i) ∧
    (rpcConnect env addr).1
      = (match urls.find? (goodCand env) with
         | some c => Except.ok c
         | none => Except.error (GoError.connectFailed addr)) ∧
    (∀ conn reqID request e,
      env.writeMessage conn reqID
          { msgType := MessageType.pdReq, pdReq := some request, pdResp := none }
        = some e →
      rpcCall env conn reqID request = Except.error (GoError.traced e)) := by
  have hspec := rpcConnectLoop_spec env addr urls emptyConnTrace
  have hconn : rpcConnect env addr = rpcConnectLoop env addr urls emptyConnTrace := by
    simp [rpcConnect, h]
  rw [hconn]
  refine ⟨?_, ?_, ?_, hspec.2.2.2, ?_⟩
  · simpa [emptyConnTrace] using hspec.1
  · rw [hspec.2.1, hspec.1]
    simp [emptyConnTrace]
  · rw [hspec.2.2.1, hspec.2.1]
    simp [emptyConnTrace]
  · intro conn reqID request e hw
    simp [rpcCall, hw]

/-- Witness for `rpcConnect_candidate_fallback` on `envSendFail`, whose
first candidate is good: only candidate 0 is dialed, nothing is closed,
and the connection to candidate 0 is returned. -/
theorem rpcConnect_candidate_fallback_witness :
    (rpcConnect envSendFail "addr").2.dialed = [0] ∧
    (rpcConnect envSendFail "addr").1 = Except.ok 0 :=
  ⟨(rpcConnect_candidate_fallback envSendFail "addr" [0, 1] rfl).1,
   (rpcConnect_candidate_fallback envSendFail "addr" [0, 1] rfl).2.2.2.1⟩

end PD
